import Mathlib

/-!
# Verification of the Wizard-of-Wor maze simulation core

A shallow embedding of the movement, collision, combat and phase logic of
`wizard_of_wor.py` (the 2D variant), plus the health logic of
`wizard_of_wor_iso.py` where a claim refers to it.  Machine reals (Python
floats) are modelled as exact rationals; `pygame.Rect` coordinates are the
integer truncations the library performs.  All randomness is passed in as
explicit oracle arguments, mirroring each `random.*` call site.
-/

set_option autoImplicit false

namespace WoW

/-! ## Constants (wizard_of_wor.py, top of file) -/

def TILE_SIZE : ℤ := 41
def MAZE_WIDTH : ℤ := 21
def MAZE_HEIGHT : ℤ := 15
def GAME_WIDTH : ℤ := MAZE_WIDTH * TILE_SIZE   -- 861
def GAME_HEIGHT : ℤ := MAZE_HEIGHT * TILE_SIZE -- 615

/-- The maze layout (1 = wall, 0 = path), verbatim from `MAZE` in
wizard_of_wor.py. -/
def MAZE : List (List ℕ) := [
  [1, 1, 1, 1, 1, 1, 1, 1, 1, 1, 1, 1, 1, 1, 1, 1, 1, 1, 1, 1, 1],
  [1, 0, 0, 0, 0, 0, 0, 0, 0, 0, 1, 0, 0, 0, 0, 0, 0, 0, 0, 0, 1],
  [1, 0, 1, 1, 0, 1, 1, 1, 0, 0, 1, 0, 0, 1, 1, 1, 0, 1, 1, 0, 1],
  [1, 0, 0, 0, 0, 0, 0, 0, 0, 0, 0, 0, 0, 0, 0, 0, 0, 0, 0, 0, 1],
  [1, 1, 1, 0, 1, 0, 1, 1, 1, 0, 1, 0, 1, 1, 1, 0, 1, 0, 1, 1, 1],
  [1, 0, 0, 0, 0, 0, 0, 0, 0, 0, 0, 0, 0, 0, 0, 0, 0, 0, 0, 0, 1],
  [1, 0, 1, 1, 0, 1, 0, 1, 1, 1, 1, 1, 1, 1, 0, 1, 0, 1, 1, 0, 1],
  [0, 0, 0, 0, 0, 1, 0, 0, 0, 0, 0, 0, 0, 0, 0, 1, 0, 0, 0, 0, 0],
  [1, 0, 1, 1, 0, 1, 0, 1, 1, 1, 1, 1, 1, 1, 0, 1, 0, 1, 1, 0, 1],
  [1, 0, 0, 0, 0, 0, 0, 0, 0, 0, 0, 0, 0, 0, 0, 0, 0, 0, 0, 0, 1],
  [1, 1, 1, 0, 1, 0, 1, 1, 1, 0, 1, 0, 1, 1, 1, 0, 1, 0, 1, 1, 1],
  [1, 0, 0, 0, 0, 0, 0, 0, 0, 0, 0, 0, 0, 0, 0, 0, 0, 0, 0, 0, 1],
  [1, 0, 1, 1, 0, 1, 1, 1, 0, 0, 1, 0, 0, 1, 1, 1, 0, 1, 1, 0, 1],
  [1, 0, 0, 0, 0, 0, 0, 0, 0, 0, 1, 0, 0, 0, 0, 0, 0, 0, 0, 0, 1],
  [1, 1, 1, 1, 1, 1, 1, 1, 1, 1, 1, 1, 1, 1, 1, 1, 1, 1, 1, 1, 1]]

/-- `True` iff tile column `c`, row `r` is inside the grid and a wall.
This is the contents of the precomputed `WALL_RECTS` list: the rect
`(41*c, 41*r, 41, 41)` is in `WALL_RECTS` iff `wallAt c r`. -/
def wallAt (c r : ℤ) : Bool :=
  if 0 ≤ c ∧ c < 21 ∧ 0 ≤ r ∧ r < 15 then
    ((MAZE.getD r.toNat []).getD c.toNat 0) == 1
  else false

/-- `pygame.Rect.colliderect` on two axis-aligned rectangles: strict
overlap (rects that merely touch do not collide). -/
def rectsCollide (x1 y1 w1 h1 x2 y2 w2 h2 : ℤ) : Bool :=
  decide (x1 < x2 + w2 ∧ x2 < x1 + w1 ∧ y1 < y2 + h2 ∧ y2 < y1 + h1)

/-- Horizontal overlap of the 37-wide entity box at `x` with tile column `c`. -/
def colOv (x c : ℤ) : Bool := decide (x < 41 * c + 41 ∧ 41 * c < x + 37)

/-- Vertical overlap of the 37-tall entity box at `y` with tile row `r`. -/
def rowOv (y r : ℤ) : Bool := decide (y < 41 * r + 41 ∧ 41 * r < y + 37)

/-- `fast_wall_collision` on the entity box `Rect(x, y, TILE_SIZE-4, TILE_SIZE-4)`:
does it overlap some wall rect? -/
def boxCollides (x y : ℤ) : Bool :=
  (List.range 15).any fun r =>
    (List.range 21).any fun c =>
      wallAt c r && colOv x (c : ℤ) && rowOv y (r : ℤ)

/-- Truncation toward zero, as the C `int` conversion `pygame.Rect`
applies to float coordinates. -/
def pytrunc (q : ℚ) : ℤ := if 0 ≤ q then ⌊q⌋ else ⌈q⌉

/-- Python `round(y / TILE_SIZE)`: nearest integer to `y / 41`.  For
integer `y` the argument is never a half-integer, so round-half-even
coincides with `⌊(2*y + 41) / 82⌋` (`/` is `Int.ediv`, which floors
for this positive divisor). -/
def pyround41 (y : ℤ) : ℤ := (2 * y + 41) / 82

/-! ## Player movement (Player.move) -/

/-- Tunnel wraparound for players and enemies:
`if new_x < 0: new_x = GAME_WIDTH - TILE_SIZE elif new_x > GAME_WIDTH - TILE_SIZE: new_x = 0`. -/
def wrapPE (nx : ℤ) : ℤ := if nx < 0 then 820 else if nx > 820 then 0 else nx

/-- Same wraparound on the enemies' float coordinates. -/
def wrapPEQ (nx : ℚ) : ℚ := if nx < 0 then 820 else if nx > 820 then 0 else nx

/-- One gradual slide step toward a target offset `off`:
`slide_speed = min(abs(offset), self.speed)` (player speed 5), applied
with the sign of `offset` (`+slide_speed if offset > 0 else -slide_speed`). -/
def slideStep (off : ℤ) : ℤ := if off > 0 then min off 5 else -(min (-off) 5)

/-- The corner-slide target search when moving horizontally and blocked:
try the nearest tile-aligned y (`round(y/41)*41 + 2`), then one tile up,
then one tile down; a target qualifies when it is within
`corner_tolerance = TILE_SIZE // 2 + 4 = 24` of `y` and the box at the
candidate `nx` and that y is collision-free. -/
def slideTargetH (nx y : ℤ) : Option ℤ :=
  let ty := 41 * pyround41 y + 2
  [ty, ty - 41, ty + 41].find? fun t =>
    decide (|t - y| ≤ 24) && !boxCollides nx t

/-- The symmetric search when moving vertically and blocked. -/
def slideTargetV (ny x : ℤ) : Option ℤ :=
  let tx := 41 * pyround41 x + 2
  [tx, tx - 41, tx + 41].find? fun t =>
    decide (|t - x| ≤ 24) && !boxCollides t ny

/-- `Player.move(dx, dy, maze)` restricted to its effect on position:
candidate = position + direction * speed (speed 5), horizontal
wraparound, commit if collision-free, otherwise corner-slide (the
python code falls through from the `dx != 0` block to the `dy != 0`
block when no horizontal slide target is found). -/
def playerMove (x y dx dy : ℤ) : ℤ × ℤ :=
  let nx := wrapPE (x + dx * 5)
  let ny := y + dy * 5
  if !boxCollides nx ny then (nx, ny)
  else
    match (if dx ≠ 0 then slideTargetH nx y else none) with
    | some t => (x, y + slideStep (t - y))
    | none =>
      match (if dy ≠ 0 then slideTargetV ny x else none) with
      | some t => (x + slideStep (t - x), y)
      | none => (x, y)

/-! ## Enemies (class Enemy) -/

inductive EType | burwor | garwor | thorwor | worluk | wizard
deriving DecidableEq, Repr

open EType

/-- `base_speed * ENEMY_SPEED_MULTIPLIER`; the python floats `0.3`,
`3*0.3`, ... are modelled as exact rationals (all uses below only
depend on the integer truncations, which agree). -/
def espeed : EType → ℚ
  | burwor => 9/10 | garwor => 9/10 | thorwor => 12/10
  | worluk => 15/10 | wizard => 0

/-- `self.points` table. -/
def epoints : EType → ℤ
  | burwor => 100 | garwor => 200 | thorwor => 500
  | worluk => 1000 | wizard => 2500

def dirList : List (ℤ × ℤ) := [(1, 0), (-1, 0), (0, 1), (0, -1)]

/-- The candidate set of `Enemy._pick_new_direction`: the axis directions
whose test position, two *speed-steps* ahead
(`self.x + d * self.speed * 2`), gives a collision-free box. -/
def possibleDirs (sp : ℚ) (x y : ℚ) : List (ℤ × ℤ) :=
  dirList.filter fun d =>
    !boxCollides (pytrunc (x + d.1 * sp * 2)) (pytrunc (y + d.2 * sp * 2))

/-- Modelled from the spec: the candidate set described by the spec's words
"for each, test whether moving two tiles in that direction collides" —
i.e. a test position two full tiles (82 px) ahead instead of the code's
two speed-steps.  Kept only to compare against `possibleDirs`. -/
def specPossibleDirs (x y : ℚ) : List (ℤ × ℤ) :=
  dirList.filter fun d =>
    !boxCollides (pytrunc (x + d.1 * 82)) (pytrunc (y + d.2 * 82))

/-- Random draws consumed by one enemy update, one field per
`random.*` call site. -/
structure Rng where
  teleIdx : ℕ      -- random.choice(valid_positions)
  teleReset : ℤ    -- random.randint(60, 120)
  invisReset : ℤ   -- random.randint(60, 120)
  reconsider : Bool -- random.random() < 0.03
  chaseRoll : Bool  -- random.random() < 0.6
  axisRoll : Bool   -- random.random() < 0.5
  choiceIdx : ℕ     -- random.choice(possible)

/-- `Enemy._pick_new_direction(player)`: worluk prefers tunnel-seeking
directions, otherwise chase the player with probability 0.6, otherwise a
uniformly random member of the candidate set; an empty candidate set
returns with the direction unchanged. -/
def pickNewDirection (et : EType) (sp : ℚ) (x y : ℚ) (dir : ℤ × ℤ)
    (px py : ℚ) (rng : Rng) : ℤ × ℤ :=
  let possible := possibleDirs sp x y
  if possible = [] then dir
  else
    let worlukPick : Option (ℤ × ℤ) :=
      if et = worluk then
        let preferred : List (ℤ × ℤ) :=
          if y < 287 then [(0, 1), (-1, 0), (1, 0)]
          else if y > 287 then [(0, -1), (-1, 0), (1, 0)]
          else [(-1, 0), (1, 0)]
        preferred.find? (fun d => d ∈ possible)
      else none
    match worlukPick with
    | some d => d
    | none =>
      let chasePick : Option (ℤ × ℤ) :=
        if rng.chaseRoll then
          let dx : ℤ := if px > x then 1 else if px < x then -1 else 0
          let dy : ℤ := if py > y then 1 else if py < y then -1 else 0
          if (dx, 0) ∈ possible ∧ rng.axisRoll then some (dx, 0)
          else if (0, dy) ∈ possible then some (0, dy)
          else none
        else none
      match chasePick with
      | some d => d
      | none => possible.getD rng.choiceIdx dir

/-- The movement core of `Enemy.update` for the non-teleporting path:
candidate position one speed-step ahead, worluk escape check
(`new_x < -TILE_SIZE // 2 = -21` or `new_x > GAME_WIDTH`), tunnel
wraparound, then commit only if the (truncated) box is collision-free.
Returns (position, active, blocked). -/
def enemyMoveStep (et : EType) (sp : ℚ) (x y : ℚ) (d : ℤ × ℤ) :
    (ℚ × ℚ) × Bool × Bool :=
  let nx0 := x + d.1 * sp
  let ny := y + d.2 * sp
  if et = worluk ∧ (nx0 < -21 ∨ nx0 > 861) then ((x, y), false, false)
  else
    let nx := wrapPEQ nx0
    if !boxCollides (pytrunc nx) (pytrunc ny) then ((nx, ny), true, false)
    else ((x, y), true, true)

/-- Full enemy state, the fields of `Enemy.__init__` the simulation reads. -/
structure Enemy where
  x : ℚ
  y : ℚ
  etype : EType
  dir : ℤ × ℤ
  shootTimer : ℤ
  invisibleTimer : ℤ
  teleportTimer : ℤ
  frame : ℤ
  active : Bool
  visible : Bool
deriving DecidableEq, Repr

/-- `Enemy.update(maze, player, valid_positions)`.  The wizard branch runs
only when `valid_positions` is non-empty (python truthiness); it
teleports on countdown to a random cached position, flickers, and
returns without moving.  All other species do one `enemyMoveStep` and
pick a new direction when blocked, plus a 3% random reconsideration. -/
def enemyUpdate (e : Enemy) (px py : ℚ) (vp : List (ℤ × ℤ)) (rng : Rng) :
    Enemy :=
  let e := { e with frame := e.frame + 1, shootTimer := e.shootTimer - 1 }
  let e :=
    if e.etype = garwor then
      let t : ℤ := e.invisibleTimer - 1
      if t ≤ 0 then
        { e with visible := !e.visible, invisibleTimer := rng.invisReset }
      else { e with invisibleTimer := t }
    else e
  if e.etype = wizard ∧ vp ≠ [] then
    let e :=
      let t : ℤ := e.teleportTimer - 1
      if t ≤ 0 then
        let p := vp.getD rng.teleIdx (0, 0)
        { e with x := (p.1 : ℚ), y := (p.2 : ℚ), teleportTimer := rng.teleReset }
      else { e with teleportTimer := t }
    { e with visible := e.frame % 6 ≠ 0 }
  else
    let m := enemyMoveStep e.etype (espeed e.etype) e.x e.y e.dir
    if m.2.1 = false then { e with active := false }
    else
      let e :=
        if m.2.2 then
          { e with dir := pickNewDirection e.etype (espeed e.etype) e.x e.y
                            e.dir px py rng }
        else { e with x := m.1.1, y := m.1.2 }
      if rng.reconsider then
        { e with dir := pickNewDirection e.etype (espeed e.etype) e.x e.y
                          e.dir px py rng }
      else e

/-! ## Bullets (class Bullet) -/

structure Bullet where
  x : ℤ
  y : ℤ
  dx : ℤ
  dy : ℤ
  isPlayer : Bool
  active : Bool
deriving DecidableEq, Repr

/-- Bullet wraparound: `if self.x < 0: self.x = GAME_WIDTH elif
self.x > GAME_WIDTH: self.x = 0` — note the strict `>` against 861. -/
def wrapB (x : ℤ) : ℤ := if x < 0 then 861 else if x > 861 then 0 else x

/-- `Bullet.update(maze)`: move by speed 14, wrap horizontally, die on a
wall tile under the bullet's centre (`int(x // 41)`: python floor
division, which `Int.ediv` by the positive 41 matches) or past the
vertical bounds. -/
def bulletUpdate (b : Bullet) : Bullet :=
  let x := wrapB (b.x + b.dx * 14)
  let y := b.y + b.dy * 14
  let wallHit := wallAt (x / 41) (y / 41)
  let vertOut : Bool := decide (y < 0 ∨ y > 615)
  { b with x := x, y := y, active := b.active && !wallHit && !vertOut }

/-- The bullet phase of `Game.update`: update every bullet, then drop the
inactive ones — before any combat scanning happens. -/
def bulletPhase (bs : List Bullet) : List Bullet :=
  (bs.map bulletUpdate).filter (·.active)

/-- `Bullet.get_rect()` vs `Enemy.get_rect()` bounding-box intersection
(`Rect(x-4, y-4, 8, 8)` against `Rect(int(x), int(y), 37, 37)`). -/
def bulletHitsEnemy (b : Bullet) (e : Enemy) : Bool :=
  rectsCollide (b.x - 4) (b.y - 4) 8 8 (pytrunc e.x) (pytrunc e.y) 37 37

/-! ## Combat (Game.update collision loops) -/

/-- Scan the enemy list in order for the first one the bullet's box hits;
return it together with the list with it removed. -/
def removeFirstHit (b : Bullet) : List Enemy → Option (Enemy × List Enemy)
  | [] => none
  | e :: rest =>
    if bulletHitsEnemy b e then some (e, rest)
    else (removeFirstHit b rest).map fun p => (p.1, e :: p.2)

/-- The bullet-vs-enemy loop of `Game.update` (2D variant): for each
player bullet, the first enemy whose box it intersects is scored and
removed immediately (there is no health), the bullet is destroyed and
scans no further enemies.  Returns (surviving bullets, surviving
enemies, score). -/
def bulletEnemyPhase : List Bullet → List Enemy → ℤ →
    List Bullet × List Enemy × ℤ
  | [], es, sc => ([], es, sc)
  | b :: bs, es, sc =>
    if b.isPlayer then
      match removeFirstHit b es with
      | some (e, es') => bulletEnemyPhase bs es' (sc + epoints e.etype)
      | none =>
        let r := bulletEnemyPhase bs es sc
        (b :: r.1, r.2.1, r.2.2)
    else
      let r := bulletEnemyPhase bs es sc
      (b :: r.1, r.2.1, r.2.2)

/-- Player state consumed by the damage loops. -/
structure PlayerS where
  x : ℤ
  y : ℤ
  lives : ℤ
  gameOver : Bool
deriving DecidableEq, Repr

/-- Does an enemy bullet's box intersect the player's box? -/
def bulletHitsPlayer (b : Bullet) (p : PlayerS) : Bool :=
  rectsCollide (b.x - 4) (b.y - 4) 8 8 p.x p.y 37 37

/-- Life loss bookkeeping shared by both damage loops: decrement lives;
at 0 set game over (the position is left where it was), otherwise
respawn at the fixed spawn point. -/
def applyPlayerHit (spawn : ℤ × ℤ) (p : PlayerS) : PlayerS :=
  let l := p.lives - 1
  if l ≤ 0 then { p with lives := l, gameOver := true }
  else { p with lives := l, x := spawn.1, y := spawn.2 }

/-- The bullet-vs-player loop of `Game.update`: every enemy bullet is
tested (no break), each hit destroys the bullet and costs a life. -/
def bulletPlayerPhase (spawn : ℤ × ℤ) : List Bullet → PlayerS →
    List Bullet × PlayerS
  | [], p => ([], p)
  | b :: bs, p =>
    if !b.isPlayer && bulletHitsPlayer b p then
      bulletPlayerPhase spawn bs (applyPlayerHit spawn p)
    else
      let r := bulletPlayerPhase spawn bs p
      (b :: r.1, r.2)

/-- Player-box vs enemy-box contact test. -/
def enemyTouchesPlayer (p : PlayerS) (e : Enemy) : Bool :=
  rectsCollide p.x p.y 37 37 (pytrunc e.x) (pytrunc e.y) 37 37

/-- The player-vs-enemy contact loop of `Game.update`: only the first
touching enemy costs a life (the loop breaks). -/
def enemyContactPhase (spawn : ℤ × ℤ) (es : List Enemy) (p : PlayerS) :
    PlayerS :=
  match es.find? (enemyTouchesPlayer p) with
  | some _ => applyPlayerHit spawn p
  | none => p

/-! ## Valid spawn positions (Game.is_valid_spawn / find_valid_spawn_positions) -/

/-- `Game.is_valid_spawn(x, y)`: the entity box at `(x, y)` overlaps no
wall rect (the python loop is the same scan `fast_wall_collision` does). -/
def isValidSpawn (x y : ℤ) : Bool := !boxCollides x y

/-- `Game.find_valid_spawn_positions()` (no `max_row`): the cached
`self.valid_positions` list — one candidate `(col*41+2, row*41+2)` per
open cell, kept if `is_valid_spawn` holds. -/
def validSpawnPositions : List (ℤ × ℤ) :=
  ((List.range 15).flatMap fun r =>
    (List.range 21).filterMap fun c =>
      if wallAt (c : ℤ) (r : ℤ) = false ∧
          isValidSpawn ((c : ℤ) * 41 + 2) ((r : ℤ) * 41 + 2) then
        some ((c : ℤ) * 41 + 2, (r : ℤ) * 41 + 2)
      else none)

/-! ## Phase state machine (Game.update phase management) -/

inductive Phase | normal | worlukP | wizardP
deriving DecidableEq, Repr

open Phase

/-- The slice of `Game` state the phase machine reads and writes. -/
structure GState where
  phase : Phase
  enemies : List Enemy
  phaseTimer : ℤ
  victory : Bool
  gameOver : Bool
deriving DecidableEq, Repr

/-- A freshly spawned enemy of the given species at a cached spawn
position, as built by `spawn_worluk` / `spawn_wizard` (its initial
timers are random; they are irrelevant to the phase claims and passed
in through `rng`). -/
def freshEnemy (et : EType) (pos : ℤ × ℤ) (rng : Rng) : Enemy :=
  { x := (pos.1 : ℚ), y := (pos.2 : ℚ), etype := et, dir := (1, 0),
    shootTimer := rng.invisReset, invisibleTimer := 0,
    teleportTimer := rng.teleReset, frame := 0,
    active := true, visible := true }

/-- `Game.spawn_worluk()` followed by the caller's `self.phase_timer = 0`. -/
def spawnWorluk (g : GState) (pos : ℤ × ℤ) (rng : Rng) : GState :=
  { g with phase := worlukP,
           enemies := g.enemies ++ [freshEnemy worluk pos rng],
           phaseTimer := 0 }

/-- `Game.spawn_wizard()` followed by the caller's `self.phase_timer = 0`. -/
def spawnWizard (g : GState) (pos : ℤ × ℤ) (rng : Rng) : GState :=
  { g with phase := wizardP,
           enemies := g.enemies ++ [freshEnemy wizard pos rng],
           phaseTimer := 0 }

/-- The phase-management block at the end of `Game.update`: nothing
happens while enemies remain; otherwise the timer ticks and `normal`
advances after 60 ticks, `worluk` after 90 ticks, while `wizard`
declares victory at once. -/
def phaseStep (g : GState) (wPos zPos : ℤ × ℤ) (rng : Rng) : GState :=
  if g.enemies.length = 0 then
    let t := g.phaseTimer + 1
    match g.phase with
    | normal => if t ≥ 60 then spawnWorluk { g with phaseTimer := t } wPos rng
                else { g with phaseTimer := t }
    | worlukP => if t ≥ 90 then spawnWizard { g with phaseTimer := t } zPos rng
                 else { g with phaseTimer := t }
    | wizardP => { g with phaseTimer := t, victory := true }
  else g

/-- The phase machine as driven by `Game.update`, whose first line
returns immediately when the session is already over. -/
def gamePhaseTick (g : GState) (wPos zPos : ℤ × ℤ) (rng : Rng) : GState :=
  if g.gameOver || g.victory then g else phaseStep g wPos zPos rng

/-! ## Bullet phase feeding combat (ordering inside Game.update) -/

/-- Bullets are moved and the inactive ones discarded, and only then does
the bullet-vs-enemy combat scan run on what is left. -/
def tickBulletsThenCombat (bs : List Bullet) (es : List Enemy) (sc : ℤ) :
    List Bullet × List Enemy × ℤ :=
  bulletEnemyPhase (bulletPhase bs) es sc

/-! ## Isometric variant (wizard_of_wor_iso.py): health and its combat loop -/

/-- Enemy state of the isometric variant, grid coordinates and health. -/
structure IsoEnemy where
  gx : ℚ
  gy : ℚ
  etype : EType
  health : ℤ
deriving DecidableEq, Repr

/-- `self.health = 3 if enemy_type == "wizard" else 1`. -/
def isoInitHealth (et : EType) : ℤ := if et = wizard then 3 else 1

/-- `Enemy.take_damage()`: decrement health, report death at `health <= 0`.
Returns the updated enemy and the returned boolean. -/
def isoTakeDamage (e : IsoEnemy) : IsoEnemy × Bool :=
  ({ e with health := e.health - 1 }, decide (e.health - 1 ≤ 0))

/-- The iso hit test `dist < 0.8` on grid coordinates, stated on squared
distances (the float `sqrt` is monotone, so the comparison agrees). -/
def isoHits (bx by_ : ℚ) (e : IsoEnemy) : Bool :=
  decide ((bx - e.gx) ^ 2 + (by_ - e.gy) ^ 2 < (8/10) ^ 2)

/-- One player bullet of the iso combat loop scanning the enemy list:
the first enemy within range takes one damage; only if that kills it is
it removed and scored; the bullet is destroyed either way and stops
scanning (`break`).  Returns (enemies, score delta, bullet destroyed). -/
def isoBulletScan (bx by_ : ℚ) : List IsoEnemy → List IsoEnemy × ℤ × Bool
  | [] => ([], 0, false)
  | e :: rest =>
    if isoHits bx by_ e then
      let (e', dead) := isoTakeDamage e
      if dead then (rest, epoints e.etype, true)
      else (e' :: rest, 0, true)
    else
      let r := isoBulletScan bx by_ rest
      (e :: r.1, r.2.1, r.2.2)

/-! ## Concrete states reused by witnesses and counterexamples -/

/-- A fixed random oracle. -/
def rngA : Rng := ⟨0, 90, 90, false, false, false, 0⟩

/-- A wizard (Boss) parked in the open cell (1, 1), teleport countdown 5. -/
def wizE : Enemy := ⟨43, 43, wizard, (1, 0), 30, 0, 5, 0, true, true⟩

/-- A currently invisible garwor parked in the open cell (1, 1). -/
def invisGarwor : Enemy := ⟨43, 43, garwor, (1, 0), 30, 50, 0, 0, true, false⟩

/-- A player bullet overlapping cell (1, 1). -/
def pBullet : Bullet := ⟨50, 50, 1, 0, true, true⟩

/-- An enemy bullet overlapping the player spawn cell (1, 13). -/
def eBullet : Bullet := ⟨60, 550, 0, 0, false, true⟩

/-- A currently invisible garwor overlapping the player spawn cell. -/
def invisGarworLow : Enemy := ⟨50, 540, garwor, (1, 0), 30, 50, 0, 0, true, false⟩

/-! ## Helper lemmas for the wall-impenetrability proof -/

/-- `41 * round(y/41)` is within 20 of `y`. -/
lemma pyround41_bounds (y : ℤ) :
    y - 20 ≤ 41 * pyround41 y ∧ 41 * pyround41 y ≤ y + 20 := by
  unfold pyround41
  omega

/-- The slide step moves from `y` toward `y + off` by at most 5. -/
lemma slideStep_between (off : ℤ) :
    (0 ≤ slideStep off ∧ slideStep off ≤ off ∧ slideStep off ≤ 5) ∨
    (off ≤ slideStep off ∧ slideStep off ≤ 0 ∧ -5 ≤ slideStep off) := by
  unfold slideStep
  split <;> omega

/-- Core geometric fact behind the corner slide: sliding from `y` toward a
tile-aligned target `t` (the nearest one, or one tile beyond it, within
the 24-px tolerance) keeps the 37-px box inside the tile bands the box
already covered at `y`. -/
lemma slide_band_subset (y t k : ℤ)
    (ht : t = 41 * pyround41 y + 2 ∨ t = 41 * pyround41 y + 2 - 41 ∨
          t = 41 * pyround41 y + 2 + 41)
    (htol : |t - y| ≤ 24)
    (h : y + slideStep (t - y) < 41 * k + 41 ∧ 41 * k < y + slideStep (t - y) + 37) :
    y < 41 * k + 41 ∧ 41 * k < y + 37 := by
  have hR := pyround41_bounds y
  have hs := slideStep_between (t - y)
  rw [abs_le] at htol
  omega

/-- Monotonicity of `fast_wall_collision` under shrinking the set of
covered tile rows. -/
lemma boxCollides_mono_row (x y y' : ℤ)
    (h : ∀ r : ℤ, rowOv y' r = true → rowOv y r = true)
    (hfree : boxCollides x y = false) : boxCollides x y' = false := by
  rw [Bool.eq_false_iff] at hfree ⊢
  intro hcon
  apply hfree
  unfold boxCollides at hcon ⊢
  rw [List.any_eq_true] at hcon ⊢
  obtain ⟨r, hr, hrow⟩ := hcon
  rw [List.any_eq_true] at hrow
  obtain ⟨c, hc, hcc⟩ := hrow
  simp only [Bool.and_eq_true] at hcc
  refine ⟨r, hr, ?_⟩
  rw [List.any_eq_true]
  exact ⟨c, hc, by simp only [Bool.and_eq_true]
                   exact ⟨⟨hcc.1.1, hcc.1.2⟩, h _ hcc.2⟩⟩

/-- Monotonicity of `fast_wall_collision` under shrinking the set of
covered tile columns. -/
lemma boxCollides_mono_col (x x' y : ℤ)
    (h : ∀ c : ℤ, colOv x' c = true → colOv x c = true)
    (hfree : boxCollides x y = false) : boxCollides x' y = false := by
  rw [Bool.eq_false_iff] at hfree ⊢
  intro hcon
  apply hfree
  unfold boxCollides at hcon ⊢
  rw [List.any_eq_true] at hcon ⊢
  obtain ⟨r, hr, hrow⟩ := hcon
  rw [List.any_eq_true] at hrow
  obtain ⟨c, hc, hcc⟩ := hrow
  simp only [Bool.and_eq_true] at hcc
  refine ⟨r, hr, ?_⟩
  rw [List.any_eq_true]
  exact ⟨c, hc, by simp only [Bool.and_eq_true]
                   exact ⟨⟨hcc.1.1, h _ hcc.1.2⟩, hcc.2⟩⟩

/-- A successful horizontal slide search yields a near-aligned,
in-tolerance target. -/
lemma slideTargetH_spec (nx y t : ℤ) (h : slideTargetH nx y = some t) :
    (t = 41 * pyround41 y + 2 ∨ t = 41 * pyround41 y + 2 - 41 ∨
     t = 41 * pyround41 y + 2 + 41) ∧ |t - y| ≤ 24 ∧
    boxCollides nx t = false := by
  unfold slideTargetH at h
  have hmem := List.mem_of_find?_eq_some h
  have hp := List.find?_some h
  simp only [Bool.and_eq_true, decide_eq_true_eq, Bool.not_eq_true'] at hp
  simp only [List.mem_cons, List.not_mem_nil, or_false] at hmem
  exact ⟨by tauto, hp.1, hp.2⟩

/-- A successful vertical slide search yields a near-aligned,
in-tolerance target. -/
lemma slideTargetV_spec (ny x t : ℤ) (h : slideTargetV ny x = some t) :
    (t = 41 * pyround41 x + 2 ∨ t = 41 * pyround41 x + 2 - 41 ∨
     t = 41 * pyround41 x + 2 + 41) ∧ |t - x| ≤ 24 ∧
    boxCollides t ny = false := by
  unfold slideTargetV at h
  have hmem := List.mem_of_find?_eq_some h
  have hp := List.find?_some h
  simp only [Bool.and_eq_true, decide_eq_true_eq, Bool.not_eq_true'] at hp
  simp only [List.mem_cons, List.not_mem_nil, or_false] at hmem
  exact ⟨by tauto, hp.1, hp.2⟩

/-- A wall-free box stays wall-free under a horizontal-block corner slide. -/
lemma slideH_preserves_free (x y nx t : ℤ)
    (hfree : boxCollides x y = false)
    (h : slideTargetH nx y = some t) :
    boxCollides x (y + slideStep (t - y)) = false := by
  obtain ⟨ht, htol, -⟩ := slideTargetH_spec nx y t h
  refine boxCollides_mono_row x y _ (fun r hr => ?_) hfree
  unfold rowOv at hr ⊢
  rw [decide_eq_true_eq] at hr ⊢
  exact slide_band_subset y t r (by omega) htol hr

/-- A wall-free box stays wall-free under a vertical-block corner slide. -/
lemma slideV_preserves_free (x y ny t : ℤ)
    (hfree : boxCollides x y = false)
    (h : slideTargetV ny x = some t) :
    boxCollides (x + slideStep (t - x)) y = false := by
  obtain ⟨ht, htol, -⟩ := slideTargetV_spec ny x t h
  refine boxCollides_mono_col x _ y (fun c hc => ?_) hfree
  unfold colOv at hc ⊢
  rw [decide_eq_true_eq] at hc ⊢
  exact slide_band_subset x t c (by omega) htol hc

/-- **C1** — Wall impenetrability.  Whatever the input direction, the
position committed by `Player.move` — through the plain commit path or
through either corner-slide correction — has a wall-free bounding box
whenever the pre-tick box was wall-free; likewise the committed position
of the enemies' tile-grid movement step (which commits a candidate only
after checking it, and otherwise stays put). -/
theorem C1_wall_impenetrability :
    (∀ x y dx dy : ℤ, boxCollides x y = false →
      boxCollides (playerMove x y dx dy).1 (playerMove x y dx dy).2 = false) ∧
    (∀ (et : EType) (sp x y : ℚ) (d : ℤ × ℤ),
      boxCollides (pytrunc x) (pytrunc y) = false →
      boxCollides (pytrunc (enemyMoveStep et sp x y d).1.1)
                  (pytrunc (enemyMoveStep et sp x y d).1.2) = false) := by
  constructor
  · intro x y dx dy hfree
    unfold playerMove
    simp only []
    split
    · next hok => simpa using hok
    · split
      · next t hfind =>
        have hH : slideTargetH (wrapPE (x + dx * 5)) y = some t := by
          by_cases hdx : dx ≠ 0
          · simpa [hdx] using hfind
          · simp [hdx] at hfind
        exact slideH_preserves_free x y _ t hfree hH
      · split
        · next t hfind =>
          have hV : slideTargetV (y + dy * 5) x = some t := by
            by_cases hdy : dy ≠ 0
            · simpa [hdy] using hfind
            · simp [hdy] at hfind
          exact slideV_preserves_free x y _ t hfree hV
        · exact hfree
  · intro et sp x y d hfree
    by_cases hw : et = worluk ∧ ((x + (d.1 : ℚ) * sp) < -21 ∨ (x + (d.1 : ℚ) * sp) > 861)
    · simp [enemyMoveStep, hw, hfree]
    · by_cases hc :
        boxCollides (pytrunc (wrapPEQ (x + (d.1 : ℚ) * sp)))
          (pytrunc (y + (d.2 : ℚ) * sp)) = true
      · simp [enemyMoveStep, hw, hc, hfree]
      · simp only [Bool.not_eq_true] at hc
        simp [enemyMoveStep, hw, hc]

/-- Witness for C1 at the player spawn cell `(43, 535)` and a burwor
starting one cell right of it. -/
theorem C1_wall_impenetrability_witness :
    boxCollides (playerMove 43 535 1 0).1 (playerMove 43 535 1 0).2 = false ∧
    boxCollides
      (pytrunc (enemyMoveStep EType.burwor (9/10) 84 535 (1, 0)).1.1)
      (pytrunc (enemyMoveStep EType.burwor (9/10) 84 535 (1, 0)).1.2) = false :=
  ⟨C1_wall_impenetrability.1 43 535 1 0 (by decide),
   C1_wall_impenetrability.2 EType.burwor (9/10) 84 535 (1, 0)
     (by norm_num [pytrunc]; decide)⟩

/-- **C4** — counterexample.  A bullet whose candidate x is exactly the
playfield width (≥ width, so the claim demands a wrap to the opposite
edge) is *not* wrapped: the code only wraps at `x > GAME_WIDTH`, so the
committed x stays 861. -/
theorem C4_wraparound_counterexample :
    (847 + 1 * 14 : ℤ) ≥ GAME_WIDTH ∧
    (bulletUpdate ⟨847, 307, 1, 0, true, true⟩).x = 861 ∧
    (bulletUpdate ⟨847, 307, 1, 0, true, true⟩).x ≠ 0 := by
  refine ⟨by decide, by decide, by decide⟩

/-- **C4**, amended — Horizontal wraparound.  Players and enemies wrap a
candidate x < 0 to `GAME_WIDTH - TILE_SIZE` and a candidate
x > `GAME_WIDTH - TILE_SIZE` (in particular anything ≥ the playfield
width) to 0; bullets wrap x < 0 to `GAME_WIDTH` and only strictly
x > `GAME_WIDTH` to 0, so a bullet candidate exactly at the width stays
put for that tick.  Each wrap function is idempotent (applied exactly
once, no double wrap), the bullet commits the wrapped value
unconditionally, and players/enemies test wall collision at the wrapped
candidate and commit exactly it when the test passes — the wrap happens
before and independently of the collision test. -/
theorem C4_wraparound_amended :
    (∀ nx : ℤ, (nx < 0 → wrapPE nx = GAME_WIDTH - TILE_SIZE) ∧
      (nx > GAME_WIDTH - TILE_SIZE → wrapPE nx = 0) ∧
      wrapPE (wrapPE nx) = wrapPE nx) ∧
    (∀ x : ℤ, (x < 0 → wrapB x = GAME_WIDTH) ∧ (x > GAME_WIDTH → wrapB x = 0) ∧
      wrapB GAME_WIDTH = GAME_WIDTH ∧ wrapB (wrapB x) = wrapB x) ∧
    (∀ b : Bullet, (bulletUpdate b).x = wrapB (b.x + b.dx * 14)) ∧
    (∀ x y dx dy : ℤ, boxCollides (wrapPE (x + dx * 5)) (y + dy * 5) = false →
      playerMove x y dx dy = (wrapPE (x + dx * 5), y + dy * 5)) ∧
    (∀ (et : EType) (sp x y : ℚ) (d : ℤ × ℤ),
      ¬(et = EType.worluk ∧
          (x + (d.1 : ℚ) * sp < -21 ∨ x + (d.1 : ℚ) * sp > 861)) →
      boxCollides (pytrunc (wrapPEQ (x + (d.1 : ℚ) * sp)))
        (pytrunc (y + (d.2 : ℚ) * sp)) = false →
      (enemyMoveStep et sp x y d).1 =
        (wrapPEQ (x + (d.1 : ℚ) * sp), y + (d.2 : ℚ) * sp)) := by
  refine ⟨fun nx => ⟨fun h => ?_, fun h => ?_, ?_⟩,
          fun x => ⟨fun h => ?_, fun h => ?_, by decide, ?_⟩,
          fun b => ?_, fun x y dx dy h => ?_, fun et sp x y d hw hc => ?_⟩
  · simp only [wrapPE, GAME_WIDTH, TILE_SIZE, MAZE_WIDTH]; rw [if_pos h]; norm_num
  · simp only [wrapPE, GAME_WIDTH, TILE_SIZE, MAZE_WIDTH] at h ⊢
    rw [if_neg (by omega), if_pos (by omega)]
  · unfold wrapPE; split <;> split <;> omega
  · simp only [wrapB, GAME_WIDTH, TILE_SIZE, MAZE_WIDTH]; rw [if_pos h]; norm_num
  · simp only [wrapB, GAME_WIDTH, TILE_SIZE, MAZE_WIDTH] at h ⊢
    rw [if_neg (by omega), if_pos (by omega)]
  · unfold wrapB; split <;> split <;> omega
  · simp [bulletUpdate]
  · simp [playerMove, h]
  · simp [enemyMoveStep, hw, hc]

/-- Witness for the amended C4 at concrete crossings of each edge. -/
theorem C4_wraparound_amended_witness :
    wrapPE (-3) = GAME_WIDTH - TILE_SIZE ∧ wrapPE 861 = 0 ∧
    wrapB (-5) = GAME_WIDTH ∧ wrapB 875 = 0 ∧
    playerMove 2 289 (-1) 0 = (wrapPE (2 + (-1) * 5), 289 + 0 * 5) ∧
    (enemyMoveStep EType.burwor (9/10) (1/2) 289 (-1, 0)).1 =
      (wrapPEQ ((1/2 : ℚ) + ((-1 : ℤ) : ℚ) * (9/10)),
       (289 : ℚ) + ((0 : ℤ) : ℚ) * (9/10)) :=
  ⟨(C4_wraparound_amended.1 (-3)).1 (by decide),
   (C4_wraparound_amended.1 861).2.1 (by decide),
   (C4_wraparound_amended.2.1 (-5)).1 (by decide),
   (C4_wraparound_amended.2.1 875).2.1 (by decide),
   C4_wraparound_amended.2.2.2.1 2 289 (-1) 0 (by decide),
   C4_wraparound_amended.2.2.2.2 EType.burwor (9/10) (1/2) 289 (-1, 0)
     (by simp)
     (by norm_num [wrapPEQ, pytrunc]; decide)⟩

/-- **C8** — Bullet destruction.  A bullet whose post-move centre tile is
a wall, or whose post-move y is beyond the vertical bounds, is inactive
that very tick; those are the *only* ways `Bullet.update` deactivates a
bullet (crossing the horizontal bounds merely wraps, it never destroys);
the bullet collection is filtered before the combat scans, so an
inactive bullet is gone and a bullet destroyed by its move contributes
nothing to combat — no damage, no score. -/
theorem C8_bullet_destruction :
    (∀ b : Bullet,
      (wallAt ((bulletUpdate b).x / 41) ((bulletUpdate b).y / 41) = true ∨
        (bulletUpdate b).y < 0 ∨ (bulletUpdate b).y > GAME_HEIGHT) →
      (bulletUpdate b).active = false) ∧
    (∀ b : Bullet, (bulletUpdate b).active = false → b.active = true →
      wallAt ((bulletUpdate b).x / 41) ((bulletUpdate b).y / 41) = true ∨
        (bulletUpdate b).y < 0 ∨ (bulletUpdate b).y > GAME_HEIGHT) ∧
    (∀ (bs : List Bullet), ∀ b' ∈ bulletPhase bs, b'.active = true) ∧
    (∀ (b : Bullet) (bs : List Bullet) (es : List Enemy) (sc : ℤ),
      (bulletUpdate b).active = false →
      tickBulletsThenCombat (b :: bs) es sc = tickBulletsThenCombat bs es sc) := by
  have hGH : GAME_HEIGHT = 615 := by decide
  refine ⟨fun b h => ?_, fun b h ha => ?_, fun bs b' h => ?_,
          fun b bs es sc h => ?_⟩
  · simp only [bulletUpdate, hGH] at h ⊢
    rcases h with h | h | h
    · simp [h]
    · simp [decide_eq_true (Or.inl h)]
    · simp [decide_eq_true (Or.inr h)]
  · simp only [bulletUpdate, hGH] at h ⊢
    simp only [ha, Bool.true_and, Bool.and_eq_false_iff, Bool.not_eq_false'] at h
    rcases h with h | h
    · exact Or.inl h
    · rw [decide_eq_true_eq] at h; tauto
  · exact (List.mem_filter.mp h).2
  · simp [tickBulletsThenCombat, bulletPhase, List.filter_cons, h]

/-- Witness for C8: a downward bullet whose centre enters the wall tile
(2, 2); it is deactivated and drops out of the combat pipeline. -/
theorem C8_bullet_destruction_witness :
    (bulletUpdate ⟨100, 100, 0, 1, true, true⟩).active = false ∧
    tickBulletsThenCombat [⟨100, 100, 0, 1, true, true⟩] [] 0 =
      tickBulletsThenCombat [] [] 0 :=
  ⟨C8_bullet_destruction.1 ⟨100, 100, 0, 1, true, true⟩ (Or.inl (by decide)),
   C8_bullet_destruction.2.2.2 ⟨100, 100, 0, 1, true, true⟩ [] [] 0
     (C8_bullet_destruction.1 ⟨100, 100, 0, 1, true, true⟩ (Or.inl (by decide)))⟩

/-- The applied slide step is exactly `min(|offset|, speed)` in magnitude. -/
lemma abs_slideStep (off : ℤ) : |slideStep off| = min |off| 5 := by
  rw [Int.abs_eq_natAbs, Int.abs_eq_natAbs]
  unfold slideStep
  split <;> omega

/-- **C9** — Corner-slide bounded correction.  When a horizontal move is
blocked and the slide search finds a target `t`, the tick commits no
horizontal movement and adjusts `y` by exactly
`min(|t - y|, speed) ≤ speed = 5` toward `t`; symmetrically for a
blocked vertical move. -/
theorem C9_corner_slide_bounded :
    (∀ x y dx t : ℤ, dx ≠ 0 →
      boxCollides (wrapPE (x + dx * 5)) y = true →
      slideTargetH (wrapPE (x + dx * 5)) y = some t →
      playerMove x y dx 0 = (x, y + slideStep (t - y)) ∧
      |slideStep (t - y)| = min |t - y| 5 ∧ |slideStep (t - y)| ≤ 5) ∧
    (∀ x y dy t : ℤ, dy ≠ 0 →
      boxCollides (wrapPE x) (y + dy * 5) = true →
      slideTargetV (y + dy * 5) x = some t →
      playerMove x y 0 dy = (x + slideStep (t - x), y) ∧
      |slideStep (t - x)| = min |t - x| 5 ∧ |slideStep (t - x)| ≤ 5) := by
  constructor
  · intro x y dx t hdx hblock hfind
    refine ⟨?_, abs_slideStep _, by rw [abs_slideStep]; omega⟩
    simp [playerMove, hblock, hdx, hfind]
  · intro x y dy t hdy hblock hfind
    refine ⟨?_, abs_slideStep _, by rw [abs_slideStep]; omega⟩
    simp [playerMove, hblock, hdy, hfind]

/-- Witness for C9: rightward movement blocked at `(43, 60)` slides down
toward the row-1 corridor; upward movement blocked at `(60, 535)` slides
left toward the column-1 corridor. -/
theorem C9_corner_slide_bounded_witness :
    (playerMove 43 60 1 0 = (43, 60 + slideStep (43 - 60)) ∧
      |slideStep (43 - 60)| = min |43 - 60| 5 ∧ |slideStep (43 - 60)| ≤ 5) ∧
    (playerMove 60 535 0 (-1) = (60 + slideStep (43 - 60), 535) ∧
      |slideStep (43 - 60)| = min |43 - 60| 5 ∧ |slideStep (43 - 60)| ≤ 5) :=
  ⟨C9_corner_slide_bounded.1 43 60 1 43 (by decide) (by decide) (by decide),
   C9_corner_slide_bounded.2 60 535 (-1) 43 (by decide) (by decide) (by decide)⟩

/-- Removing the first hit enemy removes exactly one element. -/
lemma removeFirstHit_length (b : Bullet) :
    ∀ (es es' : List Enemy) (e : Enemy),
      removeFirstHit b es = some (e, es') → es'.length + 1 = es.length := by
  intro es
  induction es with
  | nil => intro es' e h; simp [removeFirstHit] at h
  | cons a rest ih =>
    intro es' e h
    unfold removeFirstHit at h
    split at h
    · cases h; simp
    · cases hrec : removeFirstHit b rest with
      | none => rw [hrec] at h; simp at h
      | some p =>
        rw [hrec] at h
        cases h
        have := ih p.2 p.1 (by rw [hrec])
        simp [← this]

/-- **C2** — counterexample.  In the 2D variant's combat loop there is no
health at all: a single player bullet hitting the wizard (the Boss,
which the claim says takes three hits) removes it at once and awards its
full 2500 points. -/
theorem C2_combat_counterexample :
    bulletEnemyPhase [pBullet] [wizE] 0 = ([], [], 2500) := by
  have h43 : pytrunc (43 : ℚ) = 43 := by norm_num [pytrunc]
  have hhit : bulletHitsEnemy pBullet wizE = true := by
    unfold bulletHitsEnemy wizE pBullet
    rw [h43]
    decide
  simp only [bulletEnemyPhase, removeFirstHit, hhit, if_true]
  decide

/-- **C2**, amended — Player-bullet combat.  In the 2D variant each
player bullet scans the enemy list in order; the *first* enemy whose box
it intersects is removed immediately and its point value scored
(whatever its species — there is no health in this variant, so the Boss
also dies to one hit), the bullet is destroyed and scans no further
enemies (one bullet kills at most one enemy per tick).  The health
mechanics the claim describes live in the isometric variant: its
`take_damage` decrements health and reports death exactly at zero, its
combat loop removes and scores an enemy only when the hit kills it
(destroying the bullet either way), and its Boss starts at health 3 and
therefore takes three hits. -/
theorem C2_combat_amended :
    (∀ (b : Bullet) (es es' : List Enemy) (e : Enemy) (sc : ℤ),
      b.isPlayer = true → removeFirstHit b es = some (e, es') →
      bulletEnemyPhase [b] es sc = ([], es', sc + epoints e.etype) ∧
      es'.length + 1 = es.length) ∧
    (∀ e : IsoEnemy,
      isoTakeDamage e = ({ e with health := e.health - 1 },
        decide (e.health - 1 ≤ 0))) ∧
    (∀ (bx by_ : ℚ) (e : IsoEnemy) (rest : List IsoEnemy),
      isoHits bx by_ e = true →
      (1 < e.health → isoBulletScan bx by_ (e :: rest) =
        ({ e with health := e.health - 1 } :: rest, 0, true)) ∧
      (e.health ≤ 1 → isoBulletScan bx by_ (e :: rest) =
        (rest, epoints e.etype, true))) ∧
    isoInitHealth EType.wizard = 3 := by
  refine ⟨fun b es es' e sc hb hfind => ?_, fun e => rfl,
          fun bx by_ e rest hhit => ⟨fun hh => ?_, fun hh => ?_⟩, by decide⟩
  · exact ⟨by simp [bulletEnemyPhase, hb, hfind],
           removeFirstHit_length b es es' e hfind⟩
  · simp only [isoBulletScan, hhit, if_true, isoTakeDamage]
    rw [if_neg (by simp; omega)]
  · simp only [isoBulletScan, hhit, if_true, isoTakeDamage]
    rw [if_pos (by simp; omega)]

/-- Witness for the amended C2: the 2D one-hit kill of the wizard, and
the isometric Boss surviving its first hit at health 3. -/
theorem C2_combat_amended_witness :
    (bulletEnemyPhase [pBullet] [wizE] 0 = ([], [], 0 + epoints wizE.etype) ∧
      ([] : List Enemy).length + 1 = [wizE].length) ∧
    isoBulletScan 0 0 [⟨0, 0, EType.wizard, 3⟩] =
      ([⟨0, 0, EType.wizard, 2⟩], 0, true) := by
  constructor
  · refine C2_combat_amended.1 pBullet [wizE] [] wizE 0 rfl ?_
    have h43 : pytrunc (43 : ℚ) = 43 := by norm_num [pytrunc]
    have hhit : bulletHitsEnemy pBullet wizE = true := by
      unfold bulletHitsEnemy wizE pBullet
      rw [h43]
      decide
    simp [removeFirstHit, hhit]
  · have h := (C2_combat_amended.2.2.1 0 0 ⟨0, 0, EType.wizard, 3⟩ []
      (by norm_num [isoHits])).1 (by norm_num)
    simpa using h

/-- **C5** — counterexample.  Two enemy bullets overlapping the player in
the same tick each cost a life (the bullet loop has no break and no
per-tick cap): lives drop from 3 to 1 in one tick, not by "exactly 1". -/
theorem C5_life_loss_counterexample :
    (bulletPlayerPhase (43, 535) [eBullet, eBullet] ⟨43, 535, 3, false⟩).2 =
      ⟨43, 535, 1, false⟩ := by decide

/-- **C5**, amended — Player life loss.  Each intersecting enemy bullet
costs exactly one life (several bullets in one tick cost several lives);
enemy contact costs at most one life per tick, charged for the first
touching enemy only.  On any hit, if lives reach 0 the session enters
the game-over state and the position is *not* reset; otherwise the
position is reset to the fixed spawn point. -/
theorem C5_life_loss_amended :
    (∀ (spawn : ℤ × ℤ) (b : Bullet) (p : PlayerS),
      b.isPlayer = false → bulletHitsPlayer b p = true →
      bulletPlayerPhase spawn [b] p = ([], applyPlayerHit spawn p)) ∧
    (∀ (spawn : ℤ × ℤ) (es : List Enemy) (p : PlayerS) (e : Enemy),
      es.find? (enemyTouchesPlayer p) = some e →
      enemyContactPhase spawn es p = applyPlayerHit spawn p) ∧
    (∀ (spawn : ℤ × ℤ) (es : List Enemy) (p : PlayerS),
      enemyContactPhase spawn es p = p ∨
      enemyContactPhase spawn es p = applyPlayerHit spawn p) ∧
    (∀ (spawn : ℤ × ℤ) (p : PlayerS),
      (applyPlayerHit spawn p).lives = p.lives - 1 ∧
      (p.lives - 1 ≤ 0 → (applyPlayerHit spawn p).gameOver = true ∧
        (applyPlayerHit spawn p).x = p.x ∧ (applyPlayerHit spawn p).y = p.y) ∧
      (0 < p.lives - 1 → (applyPlayerHit spawn p).gameOver = p.gameOver ∧
        (applyPlayerHit spawn p).x = spawn.1 ∧
        (applyPlayerHit spawn p).y = spawn.2)) := by
  refine ⟨fun spawn b p hb hhit => ?_, fun spawn es p e hfind => ?_,
          fun spawn es p => ?_, fun spawn p => ⟨?_, fun hl => ?_, fun hl => ?_⟩⟩
  · simp [bulletPlayerPhase, hb, hhit]
  · simp [enemyContactPhase, hfind]
  · unfold enemyContactPhase
    cases es.find? (enemyTouchesPlayer p) with
    | none => exact Or.inl rfl
    | some e => exact Or.inr rfl
  · show (if p.lives - 1 ≤ 0 then _ else _ : PlayerS).lives = p.lives - 1
    split <;> rfl
  · unfold applyPlayerHit; rw [if_pos hl]; exact ⟨rfl, rfl, rfl⟩
  · unfold applyPlayerHit; rw [if_neg (by omega)]; exact ⟨rfl, rfl, rfl⟩

/-- Witness for the amended C5: a lone enemy bullet at the spawned
player, and contact with an enemy sitting on the spawn cell. -/
theorem C5_life_loss_amended_witness :
    bulletPlayerPhase (43, 535) [eBullet] ⟨43, 535, 3, false⟩ =
      ([], applyPlayerHit (43, 535) ⟨43, 535, 3, false⟩) ∧
    (applyPlayerHit (43, 535) (⟨43, 535, 1, false⟩ : PlayerS)).gameOver = true ∧
    (applyPlayerHit (43, 535) (⟨43, 535, 1, false⟩ : PlayerS)).x = 43 ∧
    (applyPlayerHit (43, 535) (⟨43, 535, 1, false⟩ : PlayerS)).y = 535 :=
  ⟨C5_life_loss_amended.1 (43, 535) eBullet ⟨43, 535, 3, false⟩ rfl (by decide),
   (C5_life_loss_amended.2.2.2 (43, 535) ⟨43, 535, 1, false⟩).2.1 (by decide)⟩

/-- **C3** — counterexample.  The wizard→victory transition has no
configured delay: in the wizard phase with zero enemies, victory is
declared on the very first phase tick (phase timer 1), far below the
60- and 90-tick delays configured for the other two transitions. -/
theorem C3_phase_counterexample :
    (gamePhaseTick ⟨Phase.wizardP, [], 0, false, false⟩ (43, 43) (43, 43)
        rngA).victory = true ∧
    (gamePhaseTick ⟨Phase.wizardP, [], 0, false, false⟩ (43, 43) (43, 43)
        rngA).phaseTimer = 1 ∧
    (1 : ℤ) < 60 ∧ (1 : ℤ) < 90 := by
  refine ⟨by decide, by decide, by decide, by decide⟩

/-- **C3**, amended — Phase progression.  Within a session the phase only
ever steps forward along normal → worluk → wizard, never backward or
skipping, and only while the live enemy count is 0; the first two
transitions wait for their configured delays (60 resp. 90 ticks) and on
firing spawn exactly one enemy of the next phase's species (exactly one
BonusFlee worluk on entering the worluk phase); the wizard phase instead
declares victory immediately on its first zero-enemy tick, with no
delay.  A set game-over (or victory) flag freezes the machine. -/
theorem C3_phase_amended :
    ∀ (g : GState) (wPos zPos : ℤ × ℤ) (rng : Rng),
      ((g.gameOver = true ∨ g.victory = true) →
        gamePhaseTick g wPos zPos rng = g) ∧
      ((gamePhaseTick g wPos zPos rng).phase ≠ g.phase → g.enemies = []) ∧
      (g.phase = Phase.normal →
        (gamePhaseTick g wPos zPos rng).phase = Phase.normal ∨
        ((gamePhaseTick g wPos zPos rng).phase = Phase.worlukP ∧
          g.enemies = [] ∧ g.phaseTimer + 1 ≥ 60 ∧
          (gamePhaseTick g wPos zPos rng).enemies =
            [freshEnemy EType.worluk wPos rng] ∧
          ((gamePhaseTick g wPos zPos rng).enemies.map Enemy.etype) =
            [EType.worluk])) ∧
      (g.phase = Phase.worlukP →
        (gamePhaseTick g wPos zPos rng).phase = Phase.worlukP ∨
        ((gamePhaseTick g wPos zPos rng).phase = Phase.wizardP ∧
          g.enemies = [] ∧ g.phaseTimer + 1 ≥ 90 ∧
          (gamePhaseTick g wPos zPos rng).enemies =
            [freshEnemy EType.wizard zPos rng])) ∧
      (g.phase = Phase.wizardP →
        (gamePhaseTick g wPos zPos rng).phase = Phase.wizardP) ∧
      ((gamePhaseTick g wPos zPos rng).victory = true → g.victory = true ∨
        (g.phase = Phase.wizardP ∧ g.enemies = [] ∧ g.gameOver = false)) := by
  intro g wPos zPos rng
  obtain ⟨ph, es, t, v, go⟩ := g
  simp only [gamePhaseTick, phaseStep, spawnWorluk, spawnWizard]
  cases ph <;> cases v <;> cases go <;>
    simp_all <;>
    split_ifs <;>
    simp_all [List.length_eq_zero, freshEnemy]

/-- Witness for the amended C3: a finished session is frozen, and the
wizard phase never leaves the wizard phase. -/
theorem C3_phase_amended_witness :
    gamePhaseTick ⟨Phase.normal, [], 7, false, true⟩ (43, 43) (84, 43) rngA =
      ⟨Phase.normal, [], 7, false, true⟩ ∧
    (gamePhaseTick ⟨Phase.wizardP, [], 0, false, false⟩ (43, 43) (84, 43)
        rngA).phase = Phase.wizardP :=
  ⟨(C3_phase_amended ⟨Phase.normal, [], 7, false, true⟩ (43, 43) (84, 43)
      rngA).1 (Or.inl rfl),
   (C3_phase_amended ⟨Phase.wizardP, [], 0, false, false⟩ (43, 43) (84, 43)
      rngA).2.2.2.2.1 rfl⟩

/-- `List.getD` of an index inside the list is a member of it. -/
lemma getD_mem_of_lt {α : Type} (d : α) :
    ∀ (l : List α) (i : ℕ), i < l.length → l.getD i d ∈ l := by
  intro l
  induction l with
  | nil => intro i h; simp at h
  | cons a rest ih =>
    intro i h
    cases i with
    | zero => simp [List.getD]
    | succ n =>
      have := ih n (by simpa using h)
      simpa [List.getD] using Or.inr this

/-- **C6** — Boss movement invariant.  With the (always non-empty) cached
valid-position list supplied, a wizard never runs the tile-grid movement
code: each tick either only its countdown decreases and its position is
untouched, or — when the countdown has run out — its position is set
directly to the entry of the cached list selected by the random index
(a member of that list, with no collision test), and the countdown is
reset to the freshly drawn value in [60, 120]. -/
theorem C6_boss_teleport :
    ∀ (e : Enemy) (px py : ℚ) (vp : List (ℤ × ℤ)) (rng : Rng),
      e.etype = EType.wizard → vp ≠ [] → rng.teleIdx < vp.length →
      60 ≤ rng.teleReset → rng.teleReset ≤ 120 →
      (0 < e.teleportTimer - 1 →
        (enemyUpdate e px py vp rng).x = e.x ∧
        (enemyUpdate e px py vp rng).y = e.y ∧
        (enemyUpdate e px py vp rng).teleportTimer = e.teleportTimer - 1) ∧
      (e.teleportTimer - 1 ≤ 0 →
        (enemyUpdate e px py vp rng).x =
          ((vp.getD rng.teleIdx (0, 0)).1 : ℚ) ∧
        (enemyUpdate e px py vp rng).y =
          ((vp.getD rng.teleIdx (0, 0)).2 : ℚ) ∧
        vp.getD rng.teleIdx (0, 0) ∈ vp ∧
        (enemyUpdate e px py vp rng).teleportTimer = rng.teleReset ∧
        60 ≤ (enemyUpdate e px py vp rng).teleportTimer ∧
        (enemyUpdate e px py vp rng).teleportTimer ≤ 120) := by
  intro e px py vp rng hwiz hvp hidx hlo hhi
  have hng : ¬e.etype = EType.garwor := by rw [hwiz]; intro h; cases h
  constructor
  · intro ht
    have : ¬e.teleportTimer - 1 ≤ 0 := by omega
    simp [enemyUpdate, hng, hwiz, hvp, this]
  · intro ht
    refine ⟨?_, ?_, getD_mem_of_lt (0, 0) vp rng.teleIdx hidx, ?_, ?_, ?_⟩ <;>
      simp [enemyUpdate, hng, hwiz, hvp, ht] <;> omega

/-- Witness for C6: the parked wizard `wizE` (countdown 5) stays put; the
same wizard with countdown 1 teleports to the only cached cell. -/
theorem C6_boss_teleport_witness :
    ((enemyUpdate wizE 0 0 [(84, 43)] rngA).x = wizE.x ∧
      (enemyUpdate wizE 0 0 [(84, 43)] rngA).y = wizE.y ∧
      (enemyUpdate wizE 0 0 [(84, 43)] rngA).teleportTimer =
        wizE.teleportTimer - 1) ∧
    ((enemyUpdate { wizE with teleportTimer := 1 } 0 0 [(84, 43)] rngA).x =
        (((84, 43) : ℤ × ℤ).1 : ℚ) ∧
      (enemyUpdate { wizE with teleportTimer := 1 } 0 0 [(84, 43)] rngA).y =
        (((84, 43) : ℤ × ℤ).2 : ℚ) ∧
      (enemyUpdate { wizE with teleportTimer := 1 } 0 0 [(84, 43)]
          rngA).teleportTimer = rngA.teleReset) := by
  have h1 := (C6_boss_teleport wizE 0 0 [(84, 43)] rngA rfl (by simp)
    (by decide) (by decide) (by decide)).1 (by decide)
  have h2 := (C6_boss_teleport { wizE with teleportTimer := 1 } 0 0 [(84, 43)]
    rngA rfl (by simp) (by decide) (by decide) (by decide)).2 (by decide)
  exact ⟨h1, h2.1, h2.2.1, h2.2.2.2.1⟩

/-- **C7** — counterexample.  At a burwor parked at `(330, 43)` the code's
candidate set (testing `speed * 2 = 1.8` px ahead) differs from the
spec's "two tiles ahead" candidate set: the code accepts moving right
(1.8 px stays inside the open cell), while two tiles to the right sits
inside the wall at column 10. -/
theorem C7_pick_direction_counterexample :
    possibleDirs (9/10) 330 43 ≠ specPossibleDirs 330 43 := by
  intro heq
  have hmem : ((1 : ℤ), (0 : ℤ)) ∈ possibleDirs (9/10) 330 43 := by
    refine List.mem_filter.mpr ⟨by simp [dirList], ?_⟩
    norm_num [pytrunc]
    decide
  have hnot : ((1 : ℤ), (0 : ℤ)) ∉ specPossibleDirs 330 43 := by
    intro hin
    have := (List.mem_filter.mp hin).2
    norm_num [pytrunc] at this
    exact absurd this (by decide)
  rw [heq] at hmem
  exact hnot hmem

/-- **C7**, amended — `_pick_new_direction`.  The candidate set is exactly
the axis directions whose test position two *speed-steps* ahead
(`speed * 2` pixels, not two tiles) is collision-free; when it is empty
the function returns with the direction unchanged (and, the movement
step having been blocked, the enemy's position is unchanged that tick) —
no exception is possible, the embedding is a total function. -/
theorem C7_pick_direction_amended :
    (∀ (sp x y : ℚ) (d : ℤ × ℤ),
      d ∈ possibleDirs sp x y ↔ d ∈ dirList ∧
        boxCollides (pytrunc (x + (d.1 : ℚ) * sp * 2))
          (pytrunc (y + (d.2 : ℚ) * sp * 2)) = false) ∧
    (∀ (et : EType) (sp x y : ℚ) (dir : ℤ × ℤ) (px py : ℚ) (rng : Rng),
      possibleDirs sp x y = [] →
      pickNewDirection et sp x y dir px py rng = dir) ∧
    (∀ (et : EType) (sp x y : ℚ) (d : ℤ × ℤ),
      (enemyMoveStep et sp x y d).2.2 = true →
      (enemyMoveStep et sp x y d).1 = (x, y)) := by
  refine ⟨fun sp x y d => ?_, fun et sp x y dir px py rng h => ?_,
          fun et sp x y d h => ?_⟩
  · simp [possibleDirs, List.mem_filter]
  · simp [pickNewDirection, h]
  · by_cases hw : et = worluk ∧
        ((x + (d.1 : ℚ) * sp) < -21 ∨ (x + (d.1 : ℚ) * sp) > 861)
    · simp [enemyMoveStep, hw] at h
    · by_cases hc :
        boxCollides (pytrunc (wrapPEQ (x + (d.1 : ℚ) * sp)))
          (pytrunc (y + (d.2 : ℚ) * sp)) = true
      · simp [enemyMoveStep, hw, hc]
      · simp only [Bool.not_eq_true] at hc
        simp [enemyMoveStep, hw, hc] at h

/-- Witness for the amended C7 at the burwor of the counterexample and a
boxed-in configuration. -/
theorem C7_pick_direction_amended_witness :
    (((1 : ℤ), (0 : ℤ)) ∈ possibleDirs (9/10) 330 43 ↔
      ((1 : ℤ), (0 : ℤ)) ∈ dirList ∧
      boxCollides (pytrunc ((330 : ℚ) + (((1 : ℤ), (0 : ℤ)).1 : ℚ) * (9/10) * 2))
        (pytrunc ((43 : ℚ) + (((1 : ℤ), (0 : ℤ)).2 : ℚ) * (9/10) * 2)) = false) ∧
    (enemyMoveStep EType.burwor (9/10) 43 (83/2) (0, -1)).1 = (43, 83/2) := by
  constructor
  · exact C7_pick_direction_amended.1 (9/10) 330 43 (1, 0)
  · refine C7_pick_direction_amended.2.2 EType.burwor (9/10) 43 (83/2) (0, -1) ?_
    simp only [enemyMoveStep]
    norm_num [wrapPEQ, pytrunc]
    decide

/-- **C10** — Cloaking enemies and combat.  Neither the bullet-vs-enemy
box test nor the player-contact box test reads the visibility flag, so
flipping it never changes any collision outcome; concretely, a player
bullet kills (and scores) a currently invisible garwor, and a currently
invisible garwor standing on the player still costs a life. -/
theorem C10_invisible_combat :
    (∀ (b : Bullet) (e : Enemy) (v : Bool),
      bulletHitsEnemy b { e with visible := v } = bulletHitsEnemy b e) ∧
    (∀ (p : PlayerS) (e : Enemy) (v : Bool),
      enemyTouchesPlayer p { e with visible := v } = enemyTouchesPlayer p e) ∧
    bulletEnemyPhase [pBullet] [invisGarwor] 0 = ([], [], 200) ∧
    invisGarwor.visible = false ∧
    (enemyContactPhase (43, 535) [invisGarworLow] ⟨43, 535, 3, false⟩).lives = 2 ∧
    invisGarworLow.visible = false := by
  have h43 : pytrunc (43 : ℚ) = 43 := by norm_num [pytrunc]
  have h50 : pytrunc (50 : ℚ) = 50 := by norm_num [pytrunc]
  have h540 : pytrunc (540 : ℚ) = 540 := by norm_num [pytrunc]
  refine ⟨fun b e v => rfl, fun p e v => rfl, ?_, rfl, ?_, rfl⟩
  · have hhit : bulletHitsEnemy pBullet invisGarwor = true := by
      unfold bulletHitsEnemy invisGarwor pBullet
      rw [h43]
      decide
    simp only [bulletEnemyPhase, removeFirstHit, hhit, if_true]
    decide
  · have htouch : enemyTouchesPlayer ⟨43, 535, 3, false⟩ invisGarworLow = true := by
      unfold enemyTouchesPlayer invisGarworLow
      rw [h50, h540]
      decide
    simp [enemyContactPhase, htouch, applyPlayerHit]

end WoW
